import Mathlib

/-!
Verification development for the civic-report issue lifecycle engine.

The data model is a shallow embedding of the Drizzle schema (shared schema
module: tables `users`, `categories`, `issues`, `upvotes`, `assignments`
and the zod insert schemas derived from them).  The operations embed
`DatabaseStorage` from `server/storage.ts` and the Express route handlers
(`registerRoutes`, `setupAuth`) from the same source bundle.

Modelling conventions:
* `gen_random_uuid()` primary keys are determinized as a `nextId : Nat`
  counter; every database insert consumes `nextId`, so fresh rows always
  get a fresh id (this is the content of the uuid/primary-key guarantee).
* Foreign-key constraints declared in the schema via `.references(...)`
  are enforced on inserts: an insert whose referenced row is absent fails
  with `DbError.fkViolation`, exactly as Postgres rejects it.  The
  `upvotes` table declares NO composite uniqueness on (userId, issueId);
  accordingly the model accepts duplicate pairs at the database layer.
* Timestamps (`defaultNow()`, `new Date()`) are explicit `now : Nat`
  parameters.
* SQL `ORDER BY COUNT(...) DESC` without a secondary sort key leaves ties
  in an unspecified, storage-dependent order; the model determinizes this
  as a stable sort over the table (insertion) order.
* Password hashing is treated as opaque: the stored credential is the
  supplied one, which is irrelevant to every property proved here.
-/

/-- Row of the `users` table. -/
structure User where
  id : Nat
  email : String
  password : String
  name : String
  role : String
deriving DecidableEq, Repr

/-- Row of the `categories` table. -/
structure Category where
  id : Nat
  name : String
deriving DecidableEq, Repr

/-- Row of the `issues` table, including the denormalized `status` field
and the four resolution fields (all null until resolution). -/
structure Issue where
  id : Nat
  title : String
  description : String
  state : String
  city : String
  reporterName : String
  reporterPhone : String
  categoryId : Option Nat
  location : String
  priority : String
  status : String
  mediaUrls : List String
  userId : Option Nat
  resolutionNotes : Option String
  resolutionImageUrl : Option String
  resolvedBy : Option Nat
  resolvedAt : Option Nat
  createdAt : Nat
deriving DecidableEq, Repr

/-- Row of the `upvotes` table.  The schema has a primary key on `id`,
foreign keys on `userId`/`issueId`, and no other constraint. -/
structure Upvote where
  id : Nat
  userId : Nat
  issueId : Nat
  createdAt : Nat
deriving DecidableEq, Repr

/-- Row of the `assignments` table. -/
structure Assignment where
  id : Nat
  issueId : Nat
  adminId : Nat
  assignedBy : Nat
  assignmentNotes : Option String
  createdAt : Nat
deriving DecidableEq, Repr

/-- The relational store: the five tables plus the fresh-id counter. -/
structure DB where
  users : List User
  categories : List Category
  issues : List Issue
  upvotes : List Upvote
  assignments : List Assignment
  nextId : Nat
deriving DecidableEq, Repr

/-- Errors raised by the database layer itself (constraint violations). -/
inductive DbError where
  | fkViolation
deriving DecidableEq, Repr

/-- HTTP-level outcome of a route handler: a success payload or an error
response carrying the status code and message the handler sends. -/
inductive Resp (α : Type) where
  | ok (value : α)
  | err (status : Nat) (message : String)
deriving DecidableEq, Repr

/-! ## Store operations (`DatabaseStorage`) -/

/-- `getUserByEmail`: first user row matching the email. -/
def getUserByEmail (db : DB) (email : String) : Option User :=
  db.users.find? (fun u => u.email == email)

/-- Insert payload accepted by `createUser` (`insertUserSchema` omits only
`id` and `createdAt`; `role` is optional because the column has a default,
and when absent the database default `citizen` applies). -/
structure InsertUser where
  email : String
  password : String
  name : String
  role : Option String
deriving DecidableEq, Repr

/-- The user row built by `createUser`: the `role` column falls back to
its schema default `"citizen"` when the insert payload omits it. -/
def mkUser (iu : InsertUser) (db : DB) : User :=
  { id := db.nextId, email := iu.email, password := iu.password,
    name := iu.name, role := iu.role.getD "citizen" }

/-- `createUser`: inserts a user row. -/
def createUser (iu : InsertUser) (db : DB) : User × DB :=
  (mkUser iu db,
   { db with users := db.users ++ [mkUser iu db], nextId := db.nextId + 1 })

/-- Insert payload accepted by `createIssue` (`insertIssueSchema` omits
`id`, `createdAt`, `status` and the four resolution fields, so those are
always the schema defaults on insert). -/
structure InsertIssue where
  title : String
  description : String
  state : String
  city : String
  reporterName : String
  reporterPhone : String
  categoryId : Option Nat
  location : String
  priority : String
  mediaUrls : List String
  userId : Option Nat
deriving DecidableEq, Repr

/-- The issue row built by `createIssue`: `status` defaults to
`"not-assigned"` and all resolution fields are null on insert. -/
def mkIssue (ii : InsertIssue) (now : Nat) (db : DB) : Issue :=
  { id := db.nextId, title := ii.title, description := ii.description,
    state := ii.state, city := ii.city, reporterName := ii.reporterName,
    reporterPhone := ii.reporterPhone, categoryId := ii.categoryId,
    location := ii.location, priority := ii.priority,
    status := "not-assigned", mediaUrls := ii.mediaUrls,
    userId := ii.userId, resolutionNotes := none,
    resolutionImageUrl := none, resolvedBy := none, resolvedAt := none,
    createdAt := now }

/-- `createIssue`: inserts an issue row, enforcing the foreign keys on
`categoryId` and `userId`. -/
def createIssue (ii : InsertIssue) (now : Nat) (db : DB) :
    Except DbError (Issue × DB) :=
  if (match ii.userId with
      | some uid => db.users.any (fun u => u.id == uid)
      | none => true) &&
     (match ii.categoryId with
      | some cid => db.categories.any (fun c => c.id == cid)
      | none => true) then
    .ok (mkIssue ii now db,
         { db with issues := db.issues ++ [mkIssue ii now db],
                   nextId := db.nextId + 1 })
  else .error .fkViolation

/-- `updateIssueStatus`: `UPDATE issues SET status = ? WHERE id = ?`. -/
def updateIssueStatus (id : Nat) (status : String) (db : DB) : DB :=
  { db with issues :=
      db.issues.map (fun i => if i.id == id then { i with status } else i) }

/-- Resolution payload (`resolveIssueSchema`: both strings `min(1)`). -/
structure ResolveData where
  resolutionNotes : String
  resolutionImageUrl : String
deriving DecidableEq, Repr

/-- `resolveIssue`: `UPDATE issues SET status = resolved, <four resolution
fields> WHERE id = ?`.  The source performs NO status check and no
row-existence check: the update simply matches zero or more rows. -/
def resolveIssue (id : Nat) (data : ResolveData) (resolvedBy : Nat)
    (now : Nat) (db : DB) : DB :=
  { db with issues :=
      db.issues.map (fun i =>
        if i.id == id then
          { i with status := "resolved",
                   resolutionNotes := some data.resolutionNotes,
                   resolutionImageUrl := some data.resolutionImageUrl,
                   resolvedBy := some resolvedBy,
                   resolvedAt := some now }
        else i) }

/-- The vote row built by the database layer on insert. -/
def mkUpvote (userId issueId now : Nat) (db : DB) : Upvote :=
  { id := db.nextId, userId := userId, issueId := issueId, createdAt := now }

/-- Database-layer insert into `upvotes`: enforces the two foreign keys
and nothing else — the schema declares no uniqueness on the
(userId, issueId) pair, so duplicate pairs are accepted. -/
def insertUpvote (userId issueId : Nat) (now : Nat) (db : DB) :
    Except DbError (Upvote × DB) :=
  if db.users.any (fun u => u.id == userId) &&
     db.issues.any (fun i => i.id == issueId) then
    .ok (mkUpvote userId issueId now db,
         { db with upvotes := db.upvotes ++ [mkUpvote userId issueId now db],
                   nextId := db.nextId + 1 })
  else .error .fkViolation

/-- Result of `toggleUpvote`. -/
structure ToggleResult where
  upvoted : Bool
  count : Nat
deriving DecidableEq, Repr

/-- Upvote count of one issue: `COUNT(upvotes.id)` grouped per issue. -/
def upvoteCount (db : DB) (issueId : Nat) : Nat :=
  (db.upvotes.filter (fun v => v.issueId == issueId)).length

/-- `DELETE FROM upvotes WHERE user_id = ? AND issue_id = ?`. -/
def deleteUpvotes (userId issueId : Nat) (db : DB) : DB :=
  { db with
    upvotes := db.upvotes.filter
      (fun v => !(v.userId == userId && v.issueId == issueId)) }

/-- `toggleUpvote`: application-level check-then-act — select the pair's
rows, delete them if any exist else insert one, then re-count the rows of
the issue.  `upvoted` is `true` exactly when no row existed before. -/
def toggleUpvote (userId issueId : Nat) (now : Nat) (db : DB) :
    Except DbError (ToggleResult × DB) :=
  if (db.upvotes.filter
      (fun v => v.userId == userId && v.issueId == issueId)).length > 0 then
    .ok ({ upvoted := false,
           count := upvoteCount (deleteUpvotes userId issueId db) issueId },
         deleteUpvotes userId issueId db)
  else
    match insertUpvote userId issueId now db with
    | .ok (_, db') =>
        .ok ({ upvoted := true, count := upvoteCount db' issueId }, db')
    | .error e => .error e

/-- Insert payload accepted by `assignIssue`. -/
structure InsertAssignment where
  issueId : Nat
  adminId : Nat
  assignedBy : Nat
  assignmentNotes : Option String
deriving DecidableEq, Repr

/-- The assignment row built by `assignIssue` on insert. -/
def mkAssignment (ia : InsertAssignment) (now : Nat) (db : DB) : Assignment :=
  { id := db.nextId, issueId := ia.issueId, adminId := ia.adminId,
    assignedBy := ia.assignedBy, assignmentNotes := ia.assignmentNotes,
    createdAt := now }

/-- `assignIssue`: inserts one assignment row (enforcing the three foreign
keys) and then unconditionally flips the issue status to `"assigned"`.
The source performs NO check of the issue's current status. -/
def assignIssue (ia : InsertAssignment) (now : Nat) (db : DB) :
    Except DbError (Assignment × DB) :=
  if db.issues.any (fun i => i.id == ia.issueId) &&
     db.users.any (fun u => u.id == ia.adminId) &&
     db.users.any (fun u => u.id == ia.assignedBy) then
    .ok (mkAssignment ia now db,
         updateIssueStatus ia.issueId "assigned"
           { db with assignments := db.assignments ++ [mkAssignment ia now db],
                     nextId := db.nextId + 1 })
  else .error .fkViolation

/-- Stable descending insertion by upvote count: an element moves ahead of
another only when its count is strictly greater, so equal counts keep
their table order — the determinization of `ORDER BY COUNT(...) DESC`
with no secondary sort key. -/
def insertByCount (db : DB) (x : Issue) : List Issue → List Issue
  | [] => [x]
  | y :: ys =>
      if upvoteCount db x.id < upvoteCount db y.id then
        y :: insertByCount db x ys
      else x :: y :: ys

/-- Stable sort of the issue table by descending upvote count. -/
def sortByCountDesc (db : DB) : List Issue → List Issue
  | [] => []
  | x :: xs => insertByCount db x (sortByCountDesc db xs)

/-- Analytics payload of `getAnalytics` (the category join of the
most-upvoted rows is dropped: it carries no information used here). -/
structure Analytics where
  totalIssues : Nat
  notAssigned : Nat
  assigned : Nat
  resolved : Nat
  categoryBreakdown : List (String × Nat)
  mostUpvotedIssues : List Issue
deriving DecidableEq, Repr

/-- `getAnalytics`: status-bucket counts, per-category counts, and the
top 3 issues by `ORDER BY COUNT(upvotes.id) DESC LIMIT 3` — no secondary
sort key, so ties stay in table order. -/
def getAnalytics (db : DB) : Analytics :=
  { totalIssues := db.issues.length,
    notAssigned := (db.issues.filter (fun i => i.status == "not-assigned")).length,
    assigned := (db.issues.filter (fun i => i.status == "assigned")).length,
    resolved := (db.issues.filter (fun i => i.status == "resolved")).length,
    categoryBreakdown := db.categories.map (fun c =>
      (c.name, (db.issues.filter (fun i => i.categoryId == some c.id)).length)),
    mostUpvotedIssues := (sortByCountDesc db db.issues).take 3 }

/-! ## Route handlers (`registerRoutes`, `setupAuth`) -/

/-- Request body of `POST /api/register`: passed to `createUser` without
any schema validation or role restriction. -/
def register (body : InsertUser) (db : DB) : Resp User × DB :=
  match getUserByEmail db body.email with
  | some _ => (.err 400 "Email already exists", db)
  | none =>
      let (u, db') := createUser body db
      (.ok u, db')

/-- Request body of `POST /api/issues` before validation; the route adds
`userId` (the session user) and `mediaUrls` (the uploaded files). -/
structure IssueBody where
  title : Option String
  description : Option String
  state : Option String
  city : Option String
  reporterName : Option String
  reporterPhone : Option String
  categoryId : Option Nat
  location : Option String
  priority : Option String
deriving DecidableEq, Repr

/-- `insertIssueSchema.parse`: every not-null column without a default
must be present; `categoryId` is nullable and `mediaUrls` has a default,
so both are optional and there is no minimum on the media list. -/
def parseInsertIssue (body : IssueBody) (userId : Nat)
    (mediaUrls : List String) : Option InsertIssue :=
  match body.title, body.description, body.state, body.city,
        body.reporterName, body.reporterPhone, body.location,
        body.priority with
  | some t, some d, some st, some ci, some rn, some rp, some lo, some pr =>
      some { title := t, description := d, state := st, city := ci,
             reporterName := rn, reporterPhone := rp,
             categoryId := body.categoryId, location := lo, priority := pr,
             mediaUrls := mediaUrls, userId := some userId }
  | _, _, _, _, _, _, _, _ => none

/-- `POST /api/issues`: guarded by `requireAuth` only — no role check of
any kind.  Uploaded files become `/uploads/<name>` references; an empty
file list becomes an empty media list and passes validation. -/
def postIssues (user : User) (body : IssueBody) (files : List String)
    (now : Nat) (db : DB) : Resp Issue × DB :=
  match parseInsertIssue body user.id (files.map (fun f => "/uploads/" ++ f)) with
  | none => (.err 400 "Invalid issue data", db)
  | some ii =>
      match createIssue ii now db with
      | .ok (issue, db') => (.ok issue, db')
      | .error _ => (.err 400 "Invalid issue data", db)

/-- `POST /api/issues/:id/upvote`: guarded by `requireAuth`; every error
thrown by the store (including the foreign-key violation raised when the
issue does not exist) is mapped to the one generic 500 response. -/
def postUpvote (user : User) (issueId : Nat) (now : Nat) (db : DB) :
    Resp ToggleResult × DB :=
  match toggleUpvote user.id issueId now db with
  | .ok (r, db') => (.ok r, db')
  | .error _ => (.err 500 "Failed to toggle upvote", db)

/-- `resolveIssueSchema.parse`: notes and image reference both `min(1)`. -/
def parseResolve (notes : Option String) (imageUrl : String) :
    Option ResolveData :=
  match notes with
  | some n =>
      if 1 ≤ n.length && 1 ≤ imageUrl.length then
        some { resolutionNotes := n, resolutionImageUrl := imageUrl }
      else none
  | none => none

/-- `POST /api/issues/:id/resolve`: guarded by `requireRole(["admin"])`;
a missing upload yields an empty image reference (rejected by the schema);
on valid input the store update runs with NO status check, so it succeeds
from any current status and overwrites any earlier resolution. -/
def postResolve (user : User) (issueId : Nat)
    (resolutionNotes : Option String) (file : Option String) (now : Nat)
    (db : DB) : Resp String × DB :=
  if user.role == "admin" then
    match parseResolve resolutionNotes
        (match file with | some f => "/uploads/" ++ f | none => "") with
    | some data =>
        (.ok "Issue resolved successfully",
         resolveIssue issueId data user.id now db)
    | none => (.err 400 "Failed to resolve issue", db)
  else (.err 403 "Insufficient permissions", db)

/-- The per-admin loop of the assign route: each `assignIssue` commits
immediately (there is no enclosing transaction); the first failure aborts
the loop, keeping every row already inserted. -/
def assignLoop (issueId assignedBy : Nat) (notes : Option String)
    (now : Nat) : List Nat → DB → List Assignment →
    (Resp (List Assignment) × DB)
  | [], db, acc => (.ok acc.reverse, db)
  | adminId :: rest, db, acc =>
      match assignIssue
          { issueId := issueId, adminId := adminId,
            assignedBy := assignedBy, assignmentNotes := notes } now db with
      | .ok (a, db') => assignLoop issueId assignedBy notes now rest db' (a :: acc)
      | .error _ => (.err 400 "Failed to assign issue", db)

/-- `POST /api/issues/:id/assign`: guarded by `requireRole(["superadmin"])`;
rejects an empty admin list, then runs the non-atomic per-admin loop.
There is NO check of the issue's current status anywhere on this path. -/
def postAssign (user : User) (issueId : Nat) (adminIds : List Nat)
    (notes : Option String) (now : Nat) (db : DB) :
    Resp (List Assignment) × DB :=
  if user.role == "superadmin" then
    match adminIds with
    | [] => (.err 400 "At least one admin must be selected", db)
    | _ => assignLoop issueId user.id notes now adminIds db []
  else (.err 403 "Insufficient permissions", db)

/-! ## Reachability through the exposed mutating operations -/

/-- One mutating call through the exposed operations: submit, upvote,
assign, resolve — each with arbitrary caller and arguments, the handler
itself deciding success or failure. -/
inductive Step : DB → DB → Prop where
  | submit (user : User) (body : IssueBody) (files : List String)
      (now : Nat) (db : DB) : Step db (postIssues user body files now db).2
  | upvote (user : User) (issueId : Nat) (now : Nat) (db : DB) :
      Step db (postUpvote user issueId now db).2
  | assign (user : User) (issueId : Nat) (adminIds : List Nat)
      (notes : Option String) (now : Nat) (db : DB) :
      Step db (postAssign user issueId adminIds notes now db).2
  | resolve (user : User) (issueId : Nat) (notes : Option String)
      (file : Option String) (now : Nat) (db : DB) :
      Step db (postResolve user issueId notes file now db).2

/-- States reachable through the exposed operations, starting from any
store holding users and categories but no issues, upvotes or
assignments. -/
inductive Reachable : DB → Prop where
  | init (db : DB) (hi : db.issues = []) (hv : db.upvotes = [])
      (ha : db.assignments = []) : Reachable db
  | step (db db' : DB) (h : Reachable db) (hs : Step db db') : Reachable db'

/-! ## Invariant vocabulary -/

/-- All four resolution fields are null. -/
@[reducible] def FieldsAllNull (i : Issue) : Prop :=
  i.resolutionNotes = none ∧ i.resolutionImageUrl = none ∧
  i.resolvedBy = none ∧ i.resolvedAt = none

/-- All four resolution fields are set. -/
@[reducible] def FieldsAllSet (i : Issue) : Prop :=
  i.resolutionNotes ≠ none ∧ i.resolutionImageUrl ≠ none ∧
  i.resolvedBy ≠ none ∧ i.resolvedAt ≠ none

/-- Some assignment row references the issue. -/
@[reducible] def HasAssignment (assigns : List Assignment) (i : Issue) : Prop :=
  ∃ a ∈ assigns, a.issueId = i.id

/-- The status/assignment/resolution relationships the code actually
maintains: resolution fields move all-or-nothing, `resolved` implies the
fields are set, `assigned` implies an assignment row exists,
`not-assigned` implies no row and null fields, and an assigned row with
null fields forces status `assigned`.  (The converse biconditionals of
the specification fail: see the counterexample for C1.) -/
@[reducible] def StatusCoherent (issues : List Issue) (assigns : List Assignment) : Prop :=
  ∀ i ∈ issues,
    (FieldsAllNull i ∨ FieldsAllSet i) ∧
    (i.status = "resolved" → FieldsAllSet i) ∧
    (i.status = "assigned" → HasAssignment assigns i) ∧
    (i.status = "not-assigned" → ¬ HasAssignment assigns i ∧ FieldsAllNull i) ∧
    (HasAssignment assigns i → FieldsAllNull i → i.status = "assigned") ∧
    (i.status = "not-assigned" ∨ i.status = "assigned" ∨ i.status = "resolved")

/-- The specification's lock-step invariant, as claimed: three
biconditionals tying `status` to its source facts. -/
@[reducible] def SpecStatusInvariant (issues : List Issue) (assigns : List Assignment) : Prop :=
  ∀ i ∈ issues,
    ((i.status = "resolved") ↔ FieldsAllSet i) ∧
    ((i.status = "assigned") ↔ (HasAssignment assigns i ∧ FieldsAllNull i)) ∧
    ((i.status = "not-assigned") ↔ (¬ HasAssignment assigns i ∧ FieldsAllNull i))

/-- At most one upvote row per (userId, issueId) pair. -/
@[reducible] def PairUnique (l : List Upvote) : Prop :=
  List.Pairwise (fun a b => ¬(a.userId = b.userId ∧ a.issueId = b.issueId)) l

/-- Structural well-formedness: issue ids are below the fresh-id counter
and every assignment row references an existing issue (its foreign key). -/
@[reducible] def Wf (db : DB) : Prop :=
  (∀ i ∈ db.issues, i.id < db.nextId) ∧
  (∀ a ∈ db.assignments, ∃ i ∈ db.issues, i.id = a.issueId)

/-- The inductive invariant carried through reachability. -/
@[reducible] def StoreInv (db : DB) : Prop :=
  Wf db ∧ StatusCoherent db.issues db.assignments ∧ PairUnique db.upvotes

/-- The specification's claimed analytics ordering: descending upvote
count with ties broken by most-recent creation timestamp first. -/
@[reducible] def TieBreakByNewest (db : DB) : Prop :=
  List.Pairwise (fun a b =>
    upvoteCount db b.id < upvoteCount db a.id ∨
    (upvoteCount db b.id = upvoteCount db a.id ∧ b.createdAt ≤ a.createdAt))
    (getAnalytics db).mostUpvotedIssues

/-- Bool projection: is an upvote row the given (user, issue) pair. -/
def pairRowB (u i : Nat) (v : Upvote) : Bool :=
  v.userId == u && v.issueId == i

/-- Bool: some row for the pair exists. -/
def hasPairRow (u i : Nat) (db : DB) : Bool :=
  db.upvotes.any (pairRowB u i)

/-- Number of distinct users currently holding a vote on the issue. -/
def distinctVoters (i : Nat) (db : DB) : Nat :=
  ((db.upvotes.filter (fun v => v.issueId == i)).map (fun v => v.userId)).dedup.length

/-- State after N sequential `toggleUpvote` calls for one pair (a failed
call leaves the store unchanged, as the route swallows the error). -/
def iterToggle (userId issueId now : Nat) : Nat → DB → DB
  | 0, db => db
  | n + 1, db =>
      match toggleUpvote userId issueId now (iterToggle userId issueId now n db) with
      | .ok (_, db') => db'
      | .error _ => iterToggle userId issueId now n db

/-- Bool projection: response is a success. -/
def respIsOk {α : Type} : Resp α → Bool
  | .ok _ => true
  | .err _ _ => false

/-- Bool projection: response is an HTTP 404 NotFound. -/
def respIsNotFound {α : Type} : Resp α → Bool
  | .err 404 _ => true
  | _ => false

/-- Bool projection: a database-layer insert succeeded. -/
def exceptIsOk {α : Type} : Except DbError α → Bool
  | .ok _ => true
  | .error _ => false

/-! ## Concrete stores used by counterexamples and witnesses -/

/-- A citizen account. -/
def userC : User :=
  { id := 0, email := "c@x", password := "p", name := "C", role := "citizen" }

/-- An admin account. -/
def userA : User :=
  { id := 1, email := "a@x", password := "p", name := "A", role := "admin" }

/-- A superadmin account. -/
def userS : User :=
  { id := 2, email := "s@x", password := "p", name := "S", role := "superadmin" }

/-- Initial store: three accounts, no issues, no votes, no assignments. -/
def db0 : DB :=
  { users := [userC, userA, userS], categories := [], issues := [],
    upvotes := [], assignments := [], nextId := 3 }

/-- A fully populated issue submission body. -/
def bodyOk : IssueBody :=
  { title := some "Pothole", description := some "d",
    state := some "texas", city := some "austin", reporterName := some "C",
    reporterPhone := some "1", categoryId := none, location := some "Main St",
    priority := some "high" }

/-- After the citizen submits one issue (id 3, created at 10). -/
def dbIssue : DB := (postIssues userC bodyOk ["m.jpg"] 10 db0).2

/-- After the superadmin assigns issue 3 to the admin. -/
def dbAssigned : DB := (postAssign userS 3 [1] none 11 dbIssue).2

/-- After the admin resolves issue 3. -/
def dbResolved : DB :=
  (postResolve userA 3 (some "done") (some "p.jpg") 12 dbAssigned).2

/-- After the superadmin assigns the already-resolved issue 3 again:
its status flips back to `assigned` while the resolution fields stay
set. -/
def dbStar : DB := (postAssign userS 3 [1] none 13 dbResolved).2

/-- After the citizen upvotes issue 3 once. -/
def dbVoted : DB := (postUpvote userC 3 14 dbIssue).2

/-- A second issue (id 4, created at 200) beside issue 3 (created at 10);
both have zero upvotes, so the analytics top list has a tie. -/
def dbTwo : DB := (postIssues userC bodyOk ["m.jpg"] 200 dbIssue).2

/-- The store after the database layer accepts a duplicate
(userC, issue 3) upvote row on top of `dbVoted`. -/
def dbDup : DB :=
  match insertUpvote 0 3 15 dbVoted with
  | .ok (_, d) => d
  | .error _ => dbVoted

/-- A registration body demanding the superadmin role. -/
def regBodySuper : InsertUser :=
  { email := "evil@x", password := "pw", name := "E", role := some "superadmin" }


/-- The parsed insert payload of `bodyOk` with one uploaded file, as the
admin submits it. -/
def iiAdmin : InsertIssue :=
  { title := "Pothole", description := "d", state := "texas",
    city := "austin", reporterName := "C", reporterPhone := "1",
    categoryId := none, location := "Main St", priority := "high",
    mediaUrls := ["/uploads/m.jpg"], userId := some 1 }

/-- The parsed insert payload of `bodyOk` with zero uploaded files, as
the citizen submits it. -/
def iiZero : InsertIssue :=
  { title := "Pothole", description := "d", state := "texas",
    city := "austin", reporterName := "C", reporterPhone := "1",
    categoryId := none, location := "Main St", priority := "high",
    mediaUrls := [], userId := some 0 }

/-! ## Operation shape lemmas -/

/-- `createIssue` either rejects on a foreign key or appends one fresh
row with default status and null resolution fields. -/
theorem createIssue_cases (ii : InsertIssue) (t : Nat) (db : DB) :
    createIssue ii t db = .error .fkViolation ∨
    createIssue ii t db =
      .ok (mkIssue ii t db,
           { db with issues := db.issues ++ [mkIssue ii t db],
                     nextId := db.nextId + 1 }) := by
  unfold createIssue
  split
  · exact Or.inr rfl
  · exact Or.inl rfl

/-- The second component of `postIssues` is the old store or the old
store with one fresh issue appended. -/
theorem postIssues_snd_cases (user : User) (body : IssueBody)
    (files : List String) (t : Nat) (db : DB) :
    (postIssues user body files t db).2 = db ∨
    ∃ ii, (postIssues user body files t db).2 =
      { db with issues := db.issues ++ [mkIssue ii t db],
                nextId := db.nextId + 1 } := by
  unfold postIssues
  cases hp : parseInsertIssue body user.id (files.map (fun f => "/uploads/" ++ f)) with
  | none => exact Or.inl rfl
  | some ii =>
      rcases createIssue_cases ii t db with hc | hc
      · simp only [hc]
        exact Or.inl trivial
      · simp only [hc]
        exact Or.inr ⟨ii, rfl⟩

/-! ## Invariant preservation -/

/-- Appending the fresh issue of `createIssue` preserves the invariant:
the new row is `not-assigned` with null fields, and no assignment row can
reference its fresh id. -/
theorem storeInv_append_issue (db : DB) (ii : InsertIssue) (t : Nat)
    (h : StoreInv db) :
    StoreInv { db with issues := db.issues ++ [mkIssue ii t db],
                       nextId := db.nextId + 1 } := by
  obtain ⟨⟨hid, hfk⟩, hsc, hpu⟩ := h
  have hnoasg : ¬ HasAssignment db.assignments (mkIssue ii t db) := by
    rintro ⟨a, ha, hae⟩
    obtain ⟨j, hj, hje⟩ := hfk a ha
    have hlt := hid j hj
    rw [hje, hae] at hlt
    simp [mkIssue] at hlt
  refine ⟨⟨?_, ?_⟩, ?_, hpu⟩
  · intro i hi
    rcases List.mem_append.mp hi with hmem | hmem
    · exact Nat.lt_succ_of_lt (hid i hmem)
    · rcases List.mem_singleton.mp hmem with rfl
      exact Nat.lt_succ_self _
  · intro a ha
    obtain ⟨i, hi, he⟩ := hfk a ha
    exact ⟨i, List.mem_append_left _ hi, he⟩
  · intro i hi
    rcases List.mem_append.mp hi with hmem | hmem
    · exact hsc i hmem
    · rcases List.mem_singleton.mp hmem with rfl
      refine ⟨Or.inl ?_, ?_, ?_, ?_, ?_, Or.inl rfl⟩
      · simp [mkIssue, FieldsAllNull]
      · intro hcontr
        simp [mkIssue] at hcontr
      · intro hcontr
        simp [mkIssue] at hcontr
      · exact fun _ => ⟨hnoasg, by simp [mkIssue, FieldsAllNull]⟩
      · exact fun hcontr _ => absurd hcontr hnoasg

/-- The submit route preserves the invariant. -/
theorem postIssues_snd_inv (user : User) (body : IssueBody)
    (files : List String) (t : Nat) (db : DB) (h : StoreInv db) :
    StoreInv (postIssues user body files t db).2 := by
  rcases postIssues_snd_cases user body files t db with hc | ⟨ii, hc⟩
  · rw [hc]; exact h
  · rw [hc]; exact storeInv_append_issue db ii t h

/-- A successful `toggleUpvote` only touches the `upvotes` table and the
fresh-id counter, and it preserves pair-uniqueness. -/
theorem toggleUpvote_ok_shape (u iid t : Nat) (db : DB) (r : ToggleResult)
    (db' : DB) (h : toggleUpvote u iid t db = .ok (r, db')) :
    db'.users = db.users ∧ db'.categories = db.categories ∧
    db'.issues = db.issues ∧ db'.assignments = db.assignments ∧
    db.nextId ≤ db'.nextId ∧
    (PairUnique db.upvotes → PairUnique db'.upvotes) := by
  unfold toggleUpvote at h
  split at h
  case isTrue hcond =>
    simp only [Except.ok.injEq, Prod.mk.injEq] at h
    obtain ⟨-, hdb⟩ := h
    subst hdb
    refine ⟨rfl, rfl, rfl, rfl, Nat.le_refl _, fun hpu => ?_⟩
    exact List.Pairwise.filter _ hpu
  case isFalse hcond =>
    cases hins : insertUpvote u iid t db with
    | error e => rw [hins] at h; cases h
    | ok p =>
        obtain ⟨v, dbI⟩ := p
        rw [hins] at h
        simp only [Except.ok.injEq, Prod.mk.injEq] at h
        obtain ⟨-, hdb⟩ := h
        subst hdb
        unfold insertUpvote at hins
        split at hins
        case isTrue hfk =>
          simp only [Except.ok.injEq, Prod.mk.injEq] at hins
          obtain ⟨-, hdbI⟩ := hins
          subst hdbI
          refine ⟨rfl, rfl, rfl, rfl, Nat.le_succ _, fun hpu => ?_⟩
          have hnone : ∀ w ∈ db.upvotes, ¬(w.userId = u ∧ w.issueId = iid) := by
            intro w hw hcontr
            have hmem : w ∈ db.upvotes.filter
                (fun v => v.userId == u && v.issueId == iid) := by
              rw [List.mem_filter]
              exact ⟨hw, by simp [hcontr.1, hcontr.2]⟩
            exact hcond (List.length_pos.mpr (List.ne_nil_of_mem hmem))
          refine List.pairwise_append.mpr ⟨hpu, List.pairwise_singleton _ _, ?_⟩
          intro a ha b hb
          rcases List.mem_singleton.mp hb with rfl
          intro hcontr
          exact hnone a ha ⟨hcontr.1, by simpa [mkUpvote] using hcontr.2⟩
        case isFalse => cases hins

/-- The upvote route preserves the invariant. -/
theorem postUpvote_snd_inv (user : User) (iid t : Nat) (db : DB)
    (h : StoreInv db) : StoreInv (postUpvote user iid t db).2 := by
  unfold postUpvote
  cases ht : toggleUpvote user.id iid t db with
  | error e => simpa using h
  | ok p =>
      obtain ⟨r, db'⟩ := p
      obtain ⟨hu, hc, hi, ha, hn, hpu⟩ :=
        toggleUpvote_ok_shape user.id iid t db r db' ht
      obtain ⟨⟨hid, hfk⟩, hsc, hp⟩ := h
      simp only
      refine ⟨⟨?_, ?_⟩, ?_, hpu hp⟩
      · intro i hmem
        rw [hi] at hmem
        exact Nat.lt_of_lt_of_le (hid i hmem) hn
      · intro a hmem
        rw [ha] at hmem
        obtain ⟨i, him, he⟩ := hfk a hmem
        exact ⟨i, by rw [hi]; exact him, he⟩
      · rw [hi, ha]
        exact hsc

/-- The per-row update of `resolveIssue` preserves the row id. -/
theorem resolve_row_id (iid : Nat) (data : ResolveData) (rby t : Nat)
    (j : Issue) :
    ((fun i => if i.id == iid then
        { i with status := "resolved",
                 resolutionNotes := some data.resolutionNotes,
                 resolutionImageUrl := some data.resolutionImageUrl,
                 resolvedBy := some rby,
                 resolvedAt := some t }
      else i) j).id = j.id := by
  by_cases hje : (j.id == iid) = true <;> simp [hje]

/-- `resolveIssue` preserves the invariant: the matched rows get status
`resolved` together with all four fields set, other rows are unchanged,
and the assignment table is untouched. -/
theorem storeInv_resolveIssue (iid : Nat) (data : ResolveData) (rby t : Nat)
    (db : DB) (h : StoreInv db) :
    StoreInv (resolveIssue iid data rby t db) := by
  obtain ⟨⟨hid, hfk⟩, hsc, hpu⟩ := h
  unfold resolveIssue
  refine ⟨⟨?_, ?_⟩, ?_, hpu⟩
  · intro i hi
    obtain ⟨j, hj, rfl⟩ := List.mem_map.mp hi
    rw [resolve_row_id]
    exact hid j hj
  · intro a ha
    obtain ⟨i, hi, he⟩ := hfk a ha
    refine ⟨_, List.mem_map_of_mem _ hi, ?_⟩
    rw [resolve_row_id]
    exact he
  · intro i hi
    obtain ⟨j, hj, rfl⟩ := List.mem_map.mp hi
    obtain ⟨h1, h2, h3, h4, h5, h6⟩ := hsc j hj
    by_cases hje : (j.id == iid) = true
    · simp only [hje, if_true]
      refine ⟨Or.inr ?_, fun _ => ?_, ?_, ?_, ?_, ?_⟩
      · simp [FieldsAllSet]
      · simp [FieldsAllSet]
      · intro hcontr; simp at hcontr
      · intro hcontr; simp at hcontr
      · intro _ hnull
        simp [FieldsAllNull] at hnull
      · simp
    · simp only [hje, if_false]
      exact ⟨h1, h2, h3, h4, h5, h6⟩

/-- The resolve route preserves the invariant. -/
theorem postResolve_snd_inv (user : User) (iid : Nat)
    (notes : Option String) (file : Option String) (t : Nat) (db : DB)
    (h : StoreInv db) : StoreInv (postResolve user iid notes file t db).2 := by
  unfold postResolve
  by_cases hrole : (user.role == "admin") = true
  · simp only [hrole, if_true]
    cases hp : parseResolve notes
        (match file with | some f => "/uploads/" ++ f | none => "") with
    | none => simpa using h
    | some data =>
        simp only
        exact storeInv_resolveIssue iid data user.id t db h
  · simp only [hrole, if_false]
    exact h

/-- The per-row update of `updateIssueStatus` preserves the row id. -/
theorem updateStatus_row_id (iid : Nat) (st : String) (j : Issue) :
    ((fun i => if i.id == iid then { i with status := st } else i) j).id
      = j.id := by
  by_cases hje : (j.id == iid) = true <;> simp [hje]

/-- A successful `assignIssue` preserves the invariant: it appends one
assignment row for the issue and flips exactly that issue's status to
`assigned`, leaving its resolution fields as they were. -/
theorem storeInv_assignIssue (ia : InsertAssignment) (t : Nat) (db : DB)
    (a : Assignment) (db' : DB)
    (hok : assignIssue ia t db = .ok (a, db')) (h : StoreInv db) :
    StoreInv db' := by
  obtain ⟨⟨hid, hfk⟩, hsc, hpu⟩ := h
  unfold assignIssue at hok
  split at hok
  case isFalse => cases hok
  case isTrue hfkc =>
    simp only [Except.ok.injEq, Prod.mk.injEq] at hok
    obtain ⟨ha, hdb⟩ := hok
    subst hdb
    have hissue : ∃ i ∈ db.issues, i.id = ia.issueId := by
      have hc := hfkc
      simp only [Bool.and_eq_true] at hc
      obtain ⟨⟨h3, -⟩, -⟩ := hc
      obtain ⟨i, hi, he⟩ := List.any_eq_true.mp h3
      exact ⟨i, hi, beq_iff_eq.mp he⟩
    unfold updateIssueStatus
    refine ⟨⟨?_, ?_⟩, ?_, hpu⟩
    · intro i hi
      obtain ⟨j, hj, rfl⟩ := List.mem_map.mp hi
      rw [updateStatus_row_id]
      exact Nat.lt_succ_of_lt (hid j hj)
    · intro b hb
      rcases List.mem_append.mp hb with hmem | hmem
      · obtain ⟨i, hi, he⟩ := hfk b hmem
        refine ⟨_, List.mem_map_of_mem _ hi, ?_⟩
        rw [updateStatus_row_id]
        exact he
      · rcases List.mem_singleton.mp hmem with rfl
        obtain ⟨i, hi, he⟩ := hissue
        refine ⟨_, List.mem_map_of_mem _ hi, ?_⟩
        rw [updateStatus_row_id, he]
        simp [mkAssignment]
    · intro i hi
      obtain ⟨j, hj, rfl⟩ := List.mem_map.mp hi
      obtain ⟨h1, h2, h3, h4, h5, h6⟩ := hsc j hj
      by_cases hje : (j.id == ia.issueId) = true
      · simp only [hje, if_true]
        refine ⟨h1, ?_, ?_, ?_, ?_, ?_⟩
        · intro hcontr
          simp at hcontr
        · intro _
          refine ⟨mkAssignment ia t db, ?_, ?_⟩
          · exact List.mem_append_right _ (List.mem_singleton_self _)
          · simpa [mkAssignment] using (beq_iff_eq.mp hje).symm
        · intro hcontr
          simp at hcontr
        · intro _ _
          trivial
        · simp
      · simp only [hje, if_false]
        have hne : (mkAssignment ia t db).issueId ≠ j.id := by
          simp only [mkAssignment]
          intro hcontr
          exact hje (beq_iff_eq.mpr hcontr.symm)
        refine ⟨h1, h2, ?_, ?_, ?_, h6⟩
        · intro hst
          obtain ⟨b, hb, he⟩ := h3 hst
          exact ⟨b, List.mem_append_left _ hb, he⟩
        · intro hst
          obtain ⟨hnas, hnull⟩ := h4 hst
          refine ⟨?_, hnull⟩
          rintro ⟨b, hb, he⟩
          rcases List.mem_append.mp hb with hmem | hmem
          · exact hnas ⟨b, hmem, he⟩
          · rcases List.mem_singleton.mp hmem with rfl
            exact hne he
        · rintro ⟨b, hb, he⟩ hnull
          rcases List.mem_append.mp hb with hmem | hmem
          · exact h5 ⟨b, hmem, he⟩ hnull
          · rcases List.mem_singleton.mp hmem with rfl
            exact absurd he hne

/-- Every iteration of the assign loop preserves the invariant. -/
theorem assignLoop_snd_inv (iid sa : Nat) (notes : Option String) (t : Nat) :
    ∀ (ids : List Nat) (db : DB) (acc : List Assignment), StoreInv db →
      StoreInv (assignLoop iid sa notes t ids db acc).2 := by
  intro ids
  induction ids with
  | nil => intro db acc h; exact h
  | cons x rest ih =>
      intro db acc h
      unfold assignLoop
      cases hA : assignIssue
          { issueId := iid, adminId := x, assignedBy := sa,
            assignmentNotes := notes } t db with
      | error e => simpa using h
      | ok p =>
          obtain ⟨asg, db'⟩ := p
          simp only
          exact ih db' (asg :: acc) (storeInv_assignIssue _ t db asg db' hA h)

/-- The assign route preserves the invariant. -/
theorem postAssign_snd_inv (user : User) (iid : Nat) (adminIds : List Nat)
    (notes : Option String) (t : Nat) (db : DB) (h : StoreInv db) :
    StoreInv (postAssign user iid adminIds notes t db).2 := by
  unfold postAssign
  by_cases hrole : (user.role == "superadmin") = true
  · simp only [hrole, if_true]
    cases adminIds with
    | nil => exact h
    | cons x rest => exact assignLoop_snd_inv iid user.id notes t (x :: rest) db [] h
  · simp only [hrole, if_false]
    exact h

/-- Every store reachable through the exposed operations satisfies the
inductive invariant. -/
theorem reachable_storeInv (db : DB) (h : Reachable db) : StoreInv db := by
  induction h with
  | init db hi hv ha =>
      refine ⟨⟨?_, ?_⟩, ?_, ?_⟩
      · rw [hi]; intro i hmem; cases hmem
      · rw [ha]; intro a hmem; cases hmem
      · rw [hi]; intro i hmem; cases hmem
      · rw [hv]; exact List.Pairwise.nil
  | step d d' hr hs ih =>
      cases hs with
      | submit user body files t => exact postIssues_snd_inv user body files t d ih
      | upvote user issueId t => exact postUpvote_snd_inv user issueId t d ih
      | assign user issueId adminIds notes t =>
          exact postAssign_snd_inv user issueId adminIds notes t d ih
      | resolve user issueId notes file t =>
          exact postResolve_snd_inv user issueId notes file t d ih

/-! ## Analytics ordering lemmas -/

/-- Membership in a count-ordered insertion. -/
theorem mem_insertByCount (db : DB) (x : Issue) (l : List Issue) (a : Issue) :
    a ∈ insertByCount db x l ↔ a = x ∨ a ∈ l := by
  induction l with
  | nil => simp [insertByCount]
  | cons y ys ih =>
      unfold insertByCount
      split
      · simp only [List.mem_cons, ih]
        tauto
      · simp only [List.mem_cons]

/-- Count-ordered insertion adds one element. -/
theorem length_insertByCount (db : DB) (x : Issue) (l : List Issue) :
    (insertByCount db x l).length = l.length + 1 := by
  induction l with
  | nil => simp [insertByCount]
  | cons y ys ih =>
      unfold insertByCount
      split
      · simp [ih]
      · rfl

/-- Count-ordered insertion preserves descending sortedness. -/
theorem pairwise_insertByCount (db : DB) (x : Issue) (l : List Issue)
    (h : List.Pairwise (fun a b => upvoteCount db b.id ≤ upvoteCount db a.id) l) :
    List.Pairwise (fun a b => upvoteCount db b.id ≤ upvoteCount db a.id)
      (insertByCount db x l) := by
  induction l with
  | nil => simp [insertByCount]
  | cons y ys ih =>
      rcases List.pairwise_cons.mp h with ⟨hy, hys⟩
      unfold insertByCount
      split
      case isTrue hlt =>
        refine List.pairwise_cons.mpr ⟨?_, ih hys⟩
        intro b hb
        rcases (mem_insertByCount db x ys b).mp hb with rfl | hmem
        · exact Nat.le_of_lt hlt
        · exact hy b hmem
      case isFalse hge =>
        refine List.pairwise_cons.mpr ⟨?_, h⟩
        intro b hb
        rcases List.mem_cons.mp hb with rfl | hmem
        · exact Nat.le_of_not_lt hge
        · exact Nat.le_trans (hy b hmem) (Nat.le_of_not_lt hge)

/-- The analytics sort is a permutation in the membership sense. -/
theorem mem_sortByCountDesc (db : DB) (l : List Issue) (a : Issue) :
    a ∈ sortByCountDesc db l ↔ a ∈ l := by
  induction l with
  | nil => simp [sortByCountDesc]
  | cons y ys ih =>
      unfold sortByCountDesc
      rw [mem_insertByCount, ih, List.mem_cons]

/-- The analytics sort preserves length. -/
theorem length_sortByCountDesc (db : DB) (l : List Issue) :
    (sortByCountDesc db l).length = l.length := by
  induction l with
  | nil => rfl
  | cons y ys ih =>
      unfold sortByCountDesc
      rw [length_insertByCount, ih]
      rfl

/-- The analytics sort is descending in upvote count. -/
theorem pairwise_sortByCountDesc (db : DB) (l : List Issue) :
    List.Pairwise (fun a b => upvoteCount db b.id ≤ upvoteCount db a.id)
      (sortByCountDesc db l) := by
  induction l with
  | nil => exact List.Pairwise.nil
  | cons y ys ih =>
      unfold sortByCountDesc
      exact pairwise_insertByCount db y (sortByCountDesc db ys) ih

/-- In a pairwise-related list, every taken element relates to every
dropped element. -/
theorem pairwise_take_drop {α : Type} {R : α → α → Prop} {l : List α}
    (h : List.Pairwise R l) (n : Nat) :
    ∀ a ∈ l.take n, ∀ b ∈ l.drop n, R a b := by
  have hsplit : l.take n ++ l.drop n = l := List.take_append_drop n l
  rw [← hsplit] at h
  exact (List.pairwise_append.mp h).2.2

/-! ## Toggle iteration lemmas -/

/-- After deleting the pair's rows, no row for the pair remains. -/
theorem hasPairRow_deleteUpvotes (u i : Nat) (db : DB) :
    hasPairRow u i (deleteUpvotes u i db) = false := by
  unfold hasPairRow deleteUpvotes pairRowB
  rw [List.any_eq_false]
  intro v hv
  rcases List.mem_filter.mp hv with ⟨-, hkeep⟩
  simp only [Bool.not_eq_true'] at hkeep
  simp [hkeep]

/-- The pair-presence test matches the route's existence check. -/
theorem hasPairRow_iff_filter_pos (u i : Nat) (db : DB) :
    hasPairRow u i db = true ↔
    (db.upvotes.filter (fun v => v.userId == u && v.issueId == i)).length > 0 := by
  unfold hasPairRow pairRowB
  rw [List.any_eq_true]
  constructor
  · rintro ⟨v, hv, hp⟩
    exact List.length_pos.mpr
      (List.ne_nil_of_mem (List.mem_filter.mpr ⟨hv, hp⟩))
  · intro hne
    have hnil : db.upvotes.filter (fun v => v.userId == u && v.issueId == i) ≠ [] := by
      intro he
      rw [he] at hne
      cases hne
    obtain ⟨v, hv⟩ := List.exists_mem_of_ne_nil _ hnil
    rcases List.mem_filter.mp hv with ⟨hmem, hp⟩
    exact ⟨v, hmem, hp⟩

/-- When a row for the pair exists, `toggleUpvote` deletes and reports
the post-delete state. -/
theorem toggleUpvote_of_hasPair (u i t : Nat) (db : DB)
    (h : hasPairRow u i db = true) :
    toggleUpvote u i t db =
      .ok ({ upvoted := false,
             count := upvoteCount (deleteUpvotes u i db) i },
           deleteUpvotes u i db) := by
  unfold toggleUpvote
  rw [if_pos ((hasPairRow_iff_filter_pos u i db).mp h)]

/-- When no row for the pair exists and both foreign keys resolve,
`toggleUpvote` inserts and reports the post-insert state. -/
theorem toggleUpvote_of_noPair (u i t : Nat) (db : DB)
    (hu : db.users.any (fun w => w.id == u) = true)
    (hi : db.issues.any (fun j => j.id == i) = true)
    (h : hasPairRow u i db = false) :
    toggleUpvote u i t db =
      .ok ({ upvoted := true,
             count := upvoteCount
               { db with upvotes := db.upvotes ++ [mkUpvote u i t db],
                         nextId := db.nextId + 1 } i },
           { db with upvotes := db.upvotes ++ [mkUpvote u i t db],
                     nextId := db.nextId + 1 }) := by
  unfold toggleUpvote
  rw [if_neg]
  · unfold insertUpvote
    rw [if_pos (by rw [hu, hi]; rfl)]
  · intro hcontr
    rw [(hasPairRow_iff_filter_pos u i db).mpr hcontr] at h
    cases h

/-- The inserted row makes the pair present. -/
theorem hasPairRow_after_insert (u i t : Nat) (db : DB) :
    hasPairRow u i
      { db with upvotes := db.upvotes ++ [mkUpvote u i t db],
                nextId := db.nextId + 1 } = true := by
  unfold hasPairRow pairRowB
  rw [List.any_eq_true]
  exact ⟨mkUpvote u i t db,
         List.mem_append_right _ (List.mem_singleton_self _),
         by simp [mkUpvote]⟩

/-- Iterated toggling keeps the other tables fixed, keeps the vote table
pair-unique, and leaves the pair's row present exactly after an odd
number of calls. -/
theorem iterToggle_state (u i t : Nat) (db : DB)
    (hu : db.users.any (fun w => w.id == u) = true)
    (hi : db.issues.any (fun j => j.id == i) = true)
    (h0 : hasPairRow u i db = false)
    (hpu : PairUnique db.upvotes) :
    ∀ n, (iterToggle u i t n db).users = db.users ∧
         (iterToggle u i t n db).issues = db.issues ∧
         PairUnique (iterToggle u i t n db).upvotes ∧
         hasPairRow u i (iterToggle u i t n db) = (n % 2 == 1) := by
  intro n
  induction n with
  | zero => exact ⟨rfl, rfl, hpu, h0⟩
  | succ m ih =>
      obtain ⟨hus, his, hpus, hpar⟩ := ih
      by_cases hpair : hasPairRow u i (iterToggle u i t m db) = true
      · have hm : m % 2 = 1 := by
          rw [hpair] at hpar
          simpa using hpar.symm
        have hstep := toggleUpvote_of_hasPair u i t (iterToggle u i t m db) hpair
        unfold iterToggle
        rw [hstep]
        refine ⟨hus, his, List.Pairwise.filter _ hpus, ?_⟩
        rw [hasPairRow_deleteUpvotes]
        have : (m + 1) % 2 = 0 := by omega
        simp [this]
      · have hpairf : hasPairRow u i (iterToggle u i t m db) = false :=
          Bool.eq_false_iff.mpr hpair
        have hm : m % 2 = 0 := by
          rw [hpairf] at hpar
          rcases Nat.mod_two_eq_zero_or_one m with h | h
          · exact h
          · rw [h] at hpar; cases hpar
        have hstep := toggleUpvote_of_noPair u i t (iterToggle u i t m db)
          (by rw [hus]; exact hu) (by rw [his]; exact hi) hpairf
        unfold iterToggle
        rw [hstep]
        refine ⟨hus, his, ?_, ?_⟩
        · obtain ⟨-, -, -, -, -, himp⟩ :=
            toggleUpvote_ok_shape u i t (iterToggle u i t m db) _ _ hstep
          exact himp hpus
        · rw [hasPairRow_after_insert]
          have : (m + 1) % 2 = 1 := by omega
          simp [this]

/-- Under pair-uniqueness, the row count of an issue equals the number of
distinct users holding a vote on it. -/
theorem upvoteCount_eq_distinctVoters (i : Nat) (db : DB)
    (hpu : PairUnique db.upvotes) :
    upvoteCount db i = distinctVoters i db := by
  unfold upvoteCount distinctVoters
  have hnodup : ((db.upvotes.filter (fun v => v.issueId == i)).map
      (fun v => v.userId)).Nodup := by
    rw [List.Nodup, List.pairwise_map]
    have hfil : List.Pairwise
        (fun a b => ¬(a.userId = b.userId ∧ a.issueId = b.issueId))
        (db.upvotes.filter (fun v => v.issueId == i)) :=
      List.Pairwise.filter _ hpu
    refine List.Pairwise.imp_of_mem ?_ hfil
    intro a b ha hb hne he
    rcases List.mem_filter.mp ha with ⟨-, hai⟩
    rcases List.mem_filter.mp hb with ⟨-, hbi⟩
    exact hne ⟨he, by rw [beq_iff_eq.mp hai, beq_iff_eq.mp hbi]⟩
  rw [List.dedup_eq_self.mpr hnodup, List.length_map]

/-! ## Assign route shape lemmas -/

/-- A successful `assignIssue` fully described, given the three foreign
keys resolve. -/
theorem assignIssue_ok_of_fk (ia : InsertAssignment) (t : Nat) (db : DB)
    (h1 : db.issues.any (fun i => i.id == ia.issueId) = true)
    (h2 : db.users.any (fun u => u.id == ia.adminId) = true)
    (h3 : db.users.any (fun u => u.id == ia.assignedBy) = true) :
    assignIssue ia t db =
      .ok (mkAssignment ia t db,
           updateIssueStatus ia.issueId "assigned"
             { db with assignments := db.assignments ++ [mkAssignment ia t db],
                       nextId := db.nextId + 1 }) := by
  unfold assignIssue
  rw [if_pos (by rw [h1, h2, h3]; rfl)]

/-- `assignIssue` rejects when the admin id resolves to no user. -/
theorem assignIssue_fk_fail (ia : InsertAssignment) (t : Nat) (db : DB)
    (h2 : db.users.any (fun u => u.id == ia.adminId) = false) :
    assignIssue ia t db = .error .fkViolation := by
  unfold assignIssue
  rw [if_neg]
  rw [h2]
  simp

/-- `updateIssueStatus` keeps the id column. -/
theorem updateStatus_ids (iid : Nat) (st : String) (db : DB) :
    (updateIssueStatus iid st db).issues.map (fun i => i.id) =
      db.issues.map (fun i => i.id) := by
  unfold updateIssueStatus
  rw [List.map_map]
  exact List.map_congr_left (fun a _ => updateStatus_row_id iid st a)

/-- After `updateIssueStatus iid "assigned"`, every row with that id has
status `assigned`. -/
theorem updateStatus_sets (iid : Nat) (db : DB) :
    ∀ i ∈ (updateIssueStatus iid "assigned" db).issues,
      i.id = iid → i.status = "assigned" := by
  intro i hi he
  obtain ⟨j, hj, rfl⟩ := List.mem_map.mp hi
  by_cases hje : (j.id == iid) = true
  · simp [hje]
  · rw [updateStatus_row_id] at he
    exact absurd (beq_iff_eq.mpr he) hje

/-- Updating a status keeps the id-existence test. -/
theorem any_id_updateStatus (iid : Nat) (st : String) (n : Nat) (db : DB)
    (h : db.issues.any (fun i => i.id == n) = true) :
    (updateIssueStatus iid st db).issues.any (fun i => i.id == n) = true := by
  obtain ⟨i0, hi0, hbeq⟩ := List.any_eq_true.mp h
  apply List.any_eq_true.mpr
  refine ⟨_, List.mem_map_of_mem _ hi0, ?_⟩
  rw [updateStatus_row_id]
  exact hbeq

/-- Full description of a successful assign loop: every admin id valid,
so each iteration commits one row and the issue ends `assigned`. -/
theorem assignLoop_ok_spec (iid sa : Nat) (notes : Option String) (t : Nat) :
    ∀ (ids : List Nat) (db : DB) (acc : List Assignment),
      db.issues.any (fun i => i.id == iid) = true →
      db.users.any (fun u => u.id == sa) = true →
      (∀ x ∈ ids, db.users.any (fun u => u.id == x) = true) →
      (∀ i ∈ db.issues, i.id = iid → i.status = "assigned") ∨ ids ≠ [] →
      ∃ res db',
        assignLoop iid sa notes t ids db acc = (Resp.ok res, db') ∧
        db'.users = db.users ∧
        db'.issues.map (fun i => i.id) = db.issues.map (fun i => i.id) ∧
        db'.assignments.map (fun a => a.adminId) =
          db.assignments.map (fun a => a.adminId) ++ ids ∧
        (∀ i ∈ db'.issues, i.id = iid → i.status = "assigned") := by
  intro ids
  induction ids with
  | nil =>
      intro db acc hissue hsa hall hstart
      refine ⟨acc.reverse, db, rfl, rfl, rfl, by simp, ?_⟩
      rcases hstart with hstart | hstart
      · exact hstart
      · exact absurd rfl hstart
  | cons x rest ih =>
      intro db acc hissue hsa hall hstart
      have hx : db.users.any (fun u => u.id == x) = true :=
        hall x (List.mem_cons_self x rest)
      have hok := assignIssue_ok_of_fk
        { issueId := iid, adminId := x, assignedBy := sa,
          assignmentNotes := notes } t db hissue hx hsa
      unfold assignLoop
      rw [hok]
      simp only
      obtain ⟨res, db', hloop, hu', hi', ha', hs'⟩ :=
        ih (updateIssueStatus iid "assigned"
              { db with
                assignments := db.assignments ++
                  [mkAssignment
                    { issueId := iid, adminId := x, assignedBy := sa,
                      assignmentNotes := notes } t db],
                nextId := db.nextId + 1 })
           (mkAssignment
              { issueId := iid, adminId := x, assignedBy := sa,
                assignmentNotes := notes } t db :: acc)
           (any_id_updateStatus iid "assigned" iid _ hissue)
           hsa
           (fun y hy => hall y (List.mem_cons_of_mem x hy))
           (Or.inl (updateStatus_sets iid _))
      refine ⟨res, db', hloop, hu', ?_, ?_, hs'⟩
      · rw [hi', updateStatus_ids]
      · rw [ha']
        have hasg : (updateIssueStatus iid "assigned"
            { db with
              assignments := db.assignments ++
                [mkAssignment
                  { issueId := iid, adminId := x, assignedBy := sa,
                    assignmentNotes := notes } t db],
              nextId := db.nextId + 1 }).assignments.map (fun a => a.adminId) =
            db.assignments.map (fun a => a.adminId) ++ [x] := by
          simp [updateIssueStatus, mkAssignment]
        rw [hasg]
        simp

/-! ## Route shape lemmas -/

/-- The resolve schema accepts any non-empty notes and image ref. -/
theorem parseResolve_ok (n img : String) (hn : 1 ≤ n.length)
    (himg : 1 ≤ img.length) :
    parseResolve (some n) img =
      some { resolutionNotes := n, resolutionImageUrl := img } := by
  simp only [parseResolve]
  rw [decide_eq_true hn, decide_eq_true himg]
  rfl

/-- A resolve call by an admin with non-empty notes and an uploaded file
always succeeds and runs the unconditional store update — there is no
status check anywhere on the path. -/
theorem postResolve_ok (user : User) (iid : Nat) (n f : String) (t : Nat)
    (db : DB) (hrole : user.role = "admin") (hn : 1 ≤ n.length) :
    postResolve user iid (some n) (some f) t db =
      (.ok "Issue resolved successfully",
       resolveIssue iid
         { resolutionNotes := n, resolutionImageUrl := "/uploads/" ++ f }
         user.id t db) := by
  unfold postResolve
  rw [if_pos (beq_iff_eq.mpr hrole)]
  have himg : 1 ≤ ("/uploads/" ++ f).length := by
    rw [String.length_append]
    have h9 : "/uploads/".length = 9 := by decide
    omega
  rw [parseResolve_ok n _ hn himg]

/-- The rows matched by `resolveIssue` carry exactly the written
resolution data afterwards. -/
theorem resolveIssue_fields (iid : Nat) (d : ResolveData) (rby t : Nat)
    (db : DB) :
    ∀ i ∈ (resolveIssue iid d rby t db).issues, i.id = iid →
      i.status = "resolved" ∧ i.resolutionNotes = some d.resolutionNotes ∧
      i.resolutionImageUrl = some d.resolutionImageUrl ∧
      i.resolvedBy = some rby ∧ i.resolvedAt = some t := by
  intro i hi he
  obtain ⟨j, hj, rfl⟩ := List.mem_map.mp hi
  by_cases hje : (j.id == iid) = true
  · simp [hje]
  · rw [resolve_row_id] at he
    exact absurd (beq_iff_eq.mpr he) hje

/-- `resolveIssue` keeps the id column. -/
theorem resolveIssue_ids (iid : Nat) (d : ResolveData) (rby t : Nat)
    (db : DB) :
    (resolveIssue iid d rby t db).issues.map (fun i => i.id) =
      db.issues.map (fun i => i.id) := by
  unfold resolveIssue
  rw [List.map_map]
  exact List.map_congr_left (fun a _ => resolve_row_id iid d rby t a)

/-- A fresh registration stores exactly the requested payload, role
included. -/
theorem register_ok (body : InsertUser) (db : DB)
    (hfresh : getUserByEmail db body.email = none) :
    register body db =
      (.ok (mkUser body db),
       { db with users := db.users ++ [mkUser body db],
                 nextId := db.nextId + 1 }) := by
  unfold register
  rw [hfresh]
  rfl

/-- A successful parse fixes the server-controlled fields. -/
theorem parseInsertIssue_some (body : IssueBody) (uid : Nat)
    (media : List String) (ii : InsertIssue)
    (hp : parseInsertIssue body uid media = some ii) :
    ii.userId = some uid ∧ ii.mediaUrls = media ∧
    ii.categoryId = body.categoryId := by
  unfold parseInsertIssue at hp
  split at hp
  · rw [Option.some.injEq] at hp
    subst hp
    exact ⟨rfl, rfl, rfl⟩
  · cases hp

/-- `createIssue` succeeds whenever the reporter exists and no category
is referenced. -/
theorem createIssue_ok_of_fk (ii : InsertIssue) (t : Nat) (db : DB)
    (uid : Nat) (huid : ii.userId = some uid)
    (hu : db.users.any (fun w => w.id == uid) = true)
    (hcat : ii.categoryId = none) :
    createIssue ii t db =
      .ok (mkIssue ii t db,
           { db with issues := db.issues ++ [mkIssue ii t db],
                     nextId := db.nextId + 1 }) := by
  have hc : ((match ii.userId with
      | some uid => db.users.any (fun u => u.id == uid)
      | none => true) &&
     (match ii.categoryId with
      | some cid => db.categories.any (fun c => c.id == cid)
      | none => true)) = true := by
    rw [huid, hcat]
    simp [hu]
  unfold createIssue
  rw [if_pos hc]

/-- The submit route succeeds for ANY authenticated caller whose parse
passes — there is no role check and no media minimum on this path. -/
theorem postIssues_ok (user : User) (body : IssueBody) (files : List String)
    (t : Nat) (db : DB) (ii : InsertIssue)
    (hp : parseInsertIssue body user.id
            (files.map (fun f => "/uploads/" ++ f)) = some ii)
    (hu : db.users.any (fun w => w.id == user.id) = true)
    (hcat : ii.categoryId = none) :
    postIssues user body files t db =
      (.ok (mkIssue ii t db),
       { db with issues := db.issues ++ [mkIssue ii t db],
                 nextId := db.nextId + 1 }) := by
  obtain ⟨huid, -, -⟩ := parseInsertIssue_some body user.id _ ii hp
  unfold postIssues
  rw [hp]
  simp only [createIssue_ok_of_fk ii t db user.id huid hu hcat]

/-- The assign route succeeds from ANY current status when the caller is
a superadmin and every admin id resolves. -/
theorem postAssign_ok (user : User) (iid : Nat) (ids : List Nat)
    (notes : Option String) (t : Nat) (db : DB)
    (hrole : user.role = "superadmin") (hne : ids ≠ [])
    (hissue : db.issues.any (fun i => i.id == iid) = true)
    (hsa : db.users.any (fun u => u.id == user.id) = true)
    (hall : ∀ x ∈ ids, db.users.any (fun u => u.id == x) = true) :
    ∃ res db', postAssign user iid ids notes t db = (Resp.ok res, db') ∧
      db'.assignments.map (fun a => a.adminId) =
        db.assignments.map (fun a => a.adminId) ++ ids ∧
      (∀ i ∈ db'.issues, i.id = iid → i.status = "assigned") := by
  obtain ⟨res, db', hloop, -, -, ha', hs'⟩ :=
    assignLoop_ok_spec iid user.id notes t ids db [] hissue hsa hall
      (Or.inr hne)
  unfold postAssign
  rw [if_pos (beq_iff_eq.mpr hrole)]
  cases ids with
  | nil => exact absurd rfl hne
  | cons x rest => exact ⟨res, db', hloop, ha', hs'⟩

/-- The assign route's loop is not atomic: with a valid first admin id
and an invalid second one, the request fails AFTER committing the first
assignment row and the status flip. -/
theorem postAssign_partial (user : User) (iid g b : Nat)
    (notes : Option String) (t : Nat) (db : DB)
    (hrole : user.role = "superadmin")
    (hissue : db.issues.any (fun i => i.id == iid) = true)
    (hsa : db.users.any (fun u => u.id == user.id) = true)
    (hg : db.users.any (fun u => u.id == g) = true)
    (hb : db.users.any (fun u => u.id == b) = false) :
    ∃ db', postAssign user iid [g, b] notes t db =
        (Resp.err 400 "Failed to assign issue", db') ∧
      db'.assignments.map (fun a => a.adminId) =
        db.assignments.map (fun a => a.adminId) ++ [g] ∧
      (∀ i ∈ db'.issues, i.id = iid → i.status = "assigned") := by
  unfold postAssign
  rw [if_pos (beq_iff_eq.mpr hrole)]
  have hok := assignIssue_ok_of_fk
    { issueId := iid, adminId := g, assignedBy := user.id,
      assignmentNotes := notes } t db hissue hg hsa
  unfold assignLoop
  rw [hok]
  simp only
  unfold assignLoop
  rw [assignIssue_fk_fail _ t _ hb]
  refine ⟨_, rfl, ?_, updateStatus_sets iid _⟩
  simp [updateIssueStatus, mkAssignment]

/-- Upvoting a missing issue: the store rejects the insert on the
foreign key and the route maps it to the one generic 500 response, with
the store unchanged. -/
theorem postUpvote_missing_issue (user : User) (iid t : Nat) (db : DB)
    (hno : db.issues.any (fun j => j.id == iid) = false)
    (hnorow : hasPairRow user.id iid db = false) :
    postUpvote user iid t db = (.err 500 "Failed to toggle upvote", db) := by
  have htog : toggleUpvote user.id iid t db = .error .fkViolation := by
    unfold toggleUpvote
    rw [if_neg]
    · have hins : insertUpvote user.id iid t db = .error .fkViolation := by
        unfold insertUpvote
        rw [if_neg]
        rw [hno]
        simp
      rw [hins]
    · intro hcontr
      have h2 := (hasPairRow_iff_filter_pos user.id iid db).mpr hcontr
      rw [h2] at hnorow
      cases hnorow
  unfold postUpvote
  rw [htog]

/-! ## Reachability of the concrete stores -/

/-- The initial store is a legal starting state. -/
theorem reachable_db0 : Reachable db0 := Reachable.init db0 rfl rfl rfl

/-- One submitted issue. -/
theorem reachable_dbIssue : Reachable dbIssue :=
  Reachable.step db0 dbIssue reachable_db0
    (Step.submit userC bodyOk ["m.jpg"] 10 db0)

/-- Issue assigned. -/
theorem reachable_dbAssigned : Reachable dbAssigned :=
  Reachable.step dbIssue dbAssigned reachable_dbIssue
    (Step.assign userS 3 [1] none 11 dbIssue)

/-- Issue resolved. -/
theorem reachable_dbResolved : Reachable dbResolved :=
  Reachable.step dbAssigned dbResolved reachable_dbAssigned
    (Step.resolve userA 3 (some "done") (some "p.jpg") 12 dbAssigned)

/-- Resolved issue assigned again. -/
theorem reachable_dbStar : Reachable dbStar :=
  Reachable.step dbResolved dbStar reachable_dbResolved
    (Step.assign userS 3 [1] none 13 dbResolved)

/-- One upvote recorded. -/
theorem reachable_dbVoted : Reachable dbVoted :=
  Reachable.step dbIssue dbVoted reachable_dbIssue
    (Step.upvote userC 3 14 dbIssue)

/-! ## Claims -/

/-- C1 (amended): for every store reachable through the exposed
operations, the directions of the lock-step invariant that the code
maintains hold: resolution fields are all-null or all-set; status
`resolved` implies the fields are set; status `assigned` implies an
assignment row exists; status `not-assigned` implies no assignment row
and null fields; and an assignment row together with null fields forces
status `assigned`.  (The claimed biconditionals fail: assigning an
already-resolved issue yields status `assigned` with resolution fields
set — see the counterexample.) -/
theorem C1_amended (db : DB) (h : Reachable db) :
    StatusCoherent db.issues db.assignments :=
  (reachable_storeInv db h).2.1

/-- C1 witness: the amended invariant, evaluated on the concrete
reachable store `dbStar`. -/
theorem C1_witness : StatusCoherent dbStar.issues dbStar.assignments :=
  C1_amended dbStar reachable_dbStar

/-- C1 counterexample: `dbStar` is reachable (submit, assign, resolve,
assign again), yet its issue has status `assigned` with all four
resolution fields set, violating the claimed biconditional lock-step
invariant. -/
theorem C1_counterexample :
    Reachable dbStar ∧
    ¬ SpecStatusInvariant dbStar.issues dbStar.assignments :=
  ⟨reachable_dbStar, by decide⟩

/-- C2 (amended): `resolveIssue` performs no status check: an admin's
resolve call with non-empty notes and an uploaded proof file succeeds
from ANY current status (including `not-assigned`), and a second resolve
call also succeeds, silently overwriting all four resolution fields with
the second call's data; no `InvalidState` outcome exists on this path. -/
theorem C2_amended (db : DB) (admin : User) (iid : Nat)
    (n1 f1 n2 f2 : String) (t1 t2 : Nat) (hrole : admin.role = "admin")
    (hn1 : 1 ≤ n1.length) (hn2 : 1 ≤ n2.length) :
    (postResolve admin iid (some n1) (some f1) t1 db).1 =
      Resp.ok "Issue resolved successfully" ∧
    (postResolve admin iid (some n2) (some f2) t2
        (postResolve admin iid (some n1) (some f1) t1 db).2).1 =
      Resp.ok "Issue resolved successfully" ∧
    ∀ i ∈ (postResolve admin iid (some n2) (some f2) t2
        (postResolve admin iid (some n1) (some f1) t1 db).2).2.issues,
      i.id = iid →
      i.status = "resolved" ∧ i.resolutionNotes = some n2 ∧
      i.resolutionImageUrl = some ("/uploads/" ++ f2) ∧
      i.resolvedBy = some admin.id ∧ i.resolvedAt = some t2 := by
  have h1 := postResolve_ok admin iid n1 f1 t1 db hrole hn1
  rw [h1]
  have h2 := postResolve_ok admin iid n2 f2 t2
    (resolveIssue iid
      { resolutionNotes := n1, resolutionImageUrl := "/uploads/" ++ f1 }
      admin.id t1 db) hrole hn2
  rw [h2]
  exact ⟨rfl, rfl, resolveIssue_fields iid _ admin.id t2 _⟩

/-- C2 witness: both resolve calls succeed on the concrete store whose
only issue is in `not-assigned` status. -/
theorem C2_witness :
    (postResolve userA 3 (some "n") (some "f.jpg") 20 dbIssue).1 =
      Resp.ok "Issue resolved successfully" ∧
    (postResolve userA 3 (some "n2") (some "g.jpg") 21
        (postResolve userA 3 (some "n") (some "f.jpg") 20 dbIssue).2).1 =
      Resp.ok "Issue resolved successfully" :=
  ⟨(C2_amended dbIssue userA 3 "n" "f.jpg" "n2" "g.jpg" 20 21 rfl
      (by decide) (by decide)).1,
   (C2_amended dbIssue userA 3 "n" "f.jpg" "n2" "g.jpg" 20 21 rfl
      (by decide) (by decide)).2.1⟩

/-- C2 counterexample: resolving the `not-assigned` issue 3 succeeds
(the claim demands an `InvalidState` failure), and a second resolve on
the already-resolved store also succeeds, silently overwriting the
resolution fields. -/
theorem C2_counterexample :
    dbIssue.issues.map (fun i => (i.id, i.status)) =
      [(3, "not-assigned")] ∧
    (postResolve userA 3 (some "n") (some "f.jpg") 20 dbIssue).1 =
      Resp.ok "Issue resolved successfully" ∧
    dbResolved.issues.map (fun i => (i.resolutionNotes, i.resolvedAt)) =
      [(some "done", some 12)] ∧
    (postResolve userA 3 (some "n2") (some "g.jpg") 21 dbResolved).1 =
      Resp.ok "Issue resolved successfully" ∧
    (postResolve userA 3 (some "n2") (some "g.jpg") 21
        dbResolved).2.issues.map
      (fun i => (i.resolutionNotes, i.resolvedAt)) =
      [(some "n2", some 21)] := by
  decide

/-- C3 (amended): `assignIssue` performs no status check.  (a) A
superadmin's assign call with a non-empty list of valid admin ids
succeeds from ANY current status (including `assigned` and `resolved`),
appends one assignment row per admin id, and (re)sets the status to
`assigned`.  (b) The per-admin loop is not atomic: with a valid first
admin id and an unknown second one, the request fails AFTER committing
the first assignment row and the status flip. -/
theorem C3_amended :
    (∀ (user : User) (iid : Nat) (ids : List Nat) (notes : Option String)
       (t : Nat) (db : DB),
       user.role = "superadmin" → ids ≠ [] →
       db.issues.any (fun i => i.id == iid) = true →
       db.users.any (fun u => u.id == user.id) = true →
       (∀ x ∈ ids, db.users.any (fun u => u.id == x) = true) →
       ∃ res db', postAssign user iid ids notes t db = (Resp.ok res, db') ∧
         db'.assignments.map (fun a => a.adminId) =
           db.assignments.map (fun a => a.adminId) ++ ids ∧
         (∀ i ∈ db'.issues, i.id = iid → i.status = "assigned")) ∧
    (∀ (user : User) (iid g b : Nat) (notes : Option String) (t : Nat)
       (db : DB),
       user.role = "superadmin" →
       db.issues.any (fun i => i.id == iid) = true →
       db.users.any (fun u => u.id == user.id) = true →
       db.users.any (fun u => u.id == g) = true →
       db.users.any (fun u => u.id == b) = false →
       ∃ db', postAssign user iid [g, b] notes t db =
           (Resp.err 400 "Failed to assign issue", db') ∧
         db'.assignments.map (fun a => a.adminId) =
           db.assignments.map (fun a => a.adminId) ++ [g] ∧
         (∀ i ∈ db'.issues, i.id = iid → i.status = "assigned")) :=
  ⟨fun user iid ids notes t db hrole hne hissue hsa hall =>
     postAssign_ok user iid ids notes t db hrole hne hissue hsa hall,
   fun user iid g b notes t db hrole hissue hsa hg hb =>
     postAssign_partial user iid g b notes t db hrole hissue hsa hg hb⟩

/-- C3 witness: re-assigning the already-assigned issue 3 succeeds and
appends a second assignment row. -/
theorem C3_witness :
    ∃ res db', postAssign userS 3 [1] none 20 dbAssigned =
        (Resp.ok res, db') ∧
      db'.assignments.map (fun a => a.adminId) =
        dbAssigned.assignments.map (fun a => a.adminId) ++ [1] ∧
      (∀ i ∈ db'.issues, i.id = 3 → i.status = "assigned") :=
  C3_amended.1 userS 3 [1] none 20 dbAssigned rfl (by decide) (by decide)
    (by decide) (by decide)

/-- C3 counterexample: issue 3 is already `assigned` with one assignment
row, yet a further assign call succeeds and a second row appears — the
claim demands an `InvalidState` failure with zero new rows. -/
theorem C3_counterexample :
    dbAssigned.issues.map (fun i => (i.id, i.status)) = [(3, "assigned")] ∧
    dbAssigned.assignments.length = 1 ∧
    respIsOk (postAssign userS 3 [1] none 20 dbAssigned).1 = true ∧
    (postAssign userS 3 [1] none 20 dbAssigned).2.assignments.length = 2 := by
  decide

/-- C4 (amended): at most one upvote row per (user, issue) pair holds in
every store reachable through the sequential exposed operations, but it
is maintained only by the application-level check-then-act inside
`toggleUpvote` — the schema declares NO composite uniqueness constraint,
and the database layer accepts a duplicate pair (see the
counterexample). -/
theorem C4_amended (db : DB) (h : Reachable db) : PairUnique db.upvotes :=
  (reachable_storeInv db h).2.2

/-- C4 witness: pair-uniqueness evaluated on the concrete reachable
store holding one vote. -/
theorem C4_witness : PairUnique dbVoted.upvotes :=
  C4_amended dbVoted reachable_dbVoted

/-- C4 counterexample: the database layer (schema constraints only)
accepts inserting a second row for the pair (user 0, issue 3) that
already has one — uniqueness is NOT enforced by a store constraint, so
the claim's enforcement mechanism is absent. -/
theorem C4_counterexample :
    exceptIsOk (insertUpvote 0 3 15 dbVoted) = true ∧
    (dbVoted.upvotes.filter (fun v => v.userId == 0 && v.issueId == 3)).length
      = 1 ∧
    (dbDup.upvotes.filter (fun v => v.userId == 0 && v.issueId == 3)).length
      = 2 := by
  decide

/-- C5 (confirmed): starting from a store with no row for the pair, the
(m+1)-th sequential `toggleUpvote` call for an existing user and issue
succeeds; afterwards the pair's row exists iff m+1 is odd, the returned
`upvoted` equals the post-toggle row presence, and the returned `count`
equals the number of distinct users currently holding a vote on the
issue. -/
theorem C5_toggle_parity (db : DB) (u i t m : Nat)
    (hu : db.users.any (fun w => w.id == u) = true)
    (hi : db.issues.any (fun j => j.id == i) = true)
    (hpu : PairUnique db.upvotes)
    (h0 : hasPairRow u i db = false) :
    ∃ r dbN, toggleUpvote u i t (iterToggle u i t m db) = .ok (r, dbN) ∧
      iterToggle u i t (m + 1) db = dbN ∧
      (hasPairRow u i dbN = true ↔ Odd (m + 1)) ∧
      r.upvoted = hasPairRow u i dbN ∧
      r.count = distinctVoters i dbN := by
  obtain ⟨hus, his, hpus, hpar⟩ := iterToggle_state u i t db hu hi h0 hpu m
  by_cases hpair : hasPairRow u i (iterToggle u i t m db) = true
  · have hm : m % 2 = 1 := by
      rw [hpair] at hpar
      simpa using hpar.symm
    have hstep := toggleUpvote_of_hasPair u i t (iterToggle u i t m db) hpair
    refine ⟨_, _, hstep, ?_, ?_, ?_, ?_⟩
    · show iterToggle u i t (m + 1) db = _
      conv_lhs => rw [iterToggle]
      rw [hstep]
    · rw [hasPairRow_deleteUpvotes]
      rw [Nat.odd_iff]
      constructor
      · intro hcontr; cases hcontr
      · intro hcontr; omega
    · show false = hasPairRow u i (deleteUpvotes u i (iterToggle u i t m db))
      rw [hasPairRow_deleteUpvotes]
    · show upvoteCount (deleteUpvotes u i (iterToggle u i t m db)) i = _
      exact upvoteCount_eq_distinctVoters i _
        (List.Pairwise.filter _ hpus)
  · have hpairf : hasPairRow u i (iterToggle u i t m db) = false :=
      Bool.eq_false_iff.mpr hpair
    have hm : m % 2 = 0 := by
      rw [hpairf] at hpar
      rcases Nat.mod_two_eq_zero_or_one m with hz | ho
      · exact hz
      · rw [ho] at hpar; cases hpar
    have hstep := toggleUpvote_of_noPair u i t (iterToggle u i t m db)
      (by rw [hus]; exact hu) (by rw [his]; exact hi) hpairf
    obtain ⟨-, -, -, -, -, himp⟩ :=
      toggleUpvote_ok_shape u i t (iterToggle u i t m db) _ _ hstep
    refine ⟨_, _, hstep, ?_, ?_, ?_, ?_⟩
    · show iterToggle u i t (m + 1) db = _
      conv_lhs => rw [iterToggle]
      rw [hstep]
    · rw [hasPairRow_after_insert]
      rw [Nat.odd_iff]
      constructor
      · intro _; omega
      · intro _; rfl
    · show true = hasPairRow u i _
      rw [hasPairRow_after_insert]
    · show upvoteCount _ i = _
      exact upvoteCount_eq_distinctVoters i _ (himp hpus)

/-- C5 witness: the first toggle by user 0 on issue 3 inserts the row,
reports `upvoted` and a distinct-voter count of one. -/
theorem C5_witness :
    ∃ r dbN, toggleUpvote 0 3 14 (iterToggle 0 3 14 0 dbIssue) =
        .ok (r, dbN) ∧
      iterToggle 0 3 14 (0 + 1) dbIssue = dbN ∧
      (hasPairRow 0 3 dbN = true ↔ Odd (0 + 1)) ∧
      r.upvoted = hasPairRow 0 3 dbN ∧
      r.count = distinctVoters 3 dbN :=
  C5_toggle_parity dbIssue 0 3 14 0 (by decide) (by decide) (by decide)
    (by decide)

/-- C6 (amended): the submit route is guarded by authentication only —
a caller of ANY role (admin and superadmin included) whose payload
parses creates the issue; no `Forbidden` outcome exists on this path. -/
theorem C6_amended (user : User) (body : IssueBody) (files : List String)
    (t : Nat) (db : DB) (ii : InsertIssue)
    (hp : parseInsertIssue body user.id
            (files.map (fun f => "/uploads/" ++ f)) = some ii)
    (hu : db.users.any (fun w => w.id == user.id) = true)
    (hcat : ii.categoryId = none) :
    respIsOk (postIssues user body files t db).1 = true ∧
    (postIssues user body files t db).2.issues =
      db.issues ++ [mkIssue ii t db] := by
  rw [postIssues_ok user body files t db ii hp hu hcat]
  exact ⟨rfl, rfl⟩

/-- C6 witness: the admin account creates an issue successfully. -/
theorem C6_witness :
    respIsOk (postIssues userA bodyOk ["m.jpg"] 20 db0).1 = true ∧
    (postIssues userA bodyOk ["m.jpg"] 20 db0).2.issues =
      db0.issues ++ [mkIssue iiAdmin 20 db0] :=
  C6_amended userA bodyOk ["m.jpg"] 20 db0 iiAdmin (by decide) (by decide)
    (by decide)

/-- C6 counterexample: the caller's role is `admin`, yet issue creation
succeeds and a record is stored — the claim demands a `Forbidden` denial
with no record. -/
theorem C6_counterexample :
    userA.role = "admin" ∧
    respIsOk (postIssues userA bodyOk ["m.jpg"] 20 db0).1 = true ∧
    (postIssues userA bodyOk ["m.jpg"] 20 db0).2.issues.length = 1 := by
  decide

/-- C7 (confirmed): the public register endpoint stores the
caller-supplied role verbatim whenever the email is fresh, defaulting to
`citizen` only when the role field is absent — nothing restricts the
requested role, so an unauthenticated registrant can obtain `admin` or
`superadmin`. -/
theorem C7_role_from_body (body : InsertUser) (db : DB)
    (hfresh : getUserByEmail db body.email = none) :
    (register body db).1 = Resp.ok (mkUser body db) ∧
    (mkUser body db).role = body.role.getD "citizen" ∧
    mkUser body db ∈ (register body db).2.users := by
  rw [register_ok body db hfresh]
  exact ⟨rfl, rfl, List.mem_append_right _ (List.mem_singleton_self _)⟩

/-- C7 witness: registering with role `superadmin` yields a stored
`superadmin` account. -/
theorem C7_witness :
    (register regBodySuper db0).1 = Resp.ok (mkUser regBodySuper db0) ∧
    (mkUser regBodySuper db0).role = regBodySuper.role.getD "citizen" ∧
    mkUser regBodySuper db0 ∈ (register regBodySuper db0).2.users :=
  C7_role_from_body regBodySuper db0 (by decide)

/-- C8 (amended): no minimum-media validation exists: a submission with
zero attached media parses, succeeds, and stores an empty media list —
the claim's `ValidationError` rejection does not happen. -/
theorem C8_amended (user : User) (body : IssueBody) (t : Nat) (db : DB)
    (ii : InsertIssue)
    (hp : parseInsertIssue body user.id [] = some ii)
    (hu : db.users.any (fun w => w.id == user.id) = true)
    (hcat : ii.categoryId = none) :
    respIsOk (postIssues user body [] t db).1 = true ∧
    (postIssues user body [] t db).2.issues =
      db.issues ++ [mkIssue ii t db] ∧
    (mkIssue ii t db).mediaUrls = [] := by
  obtain ⟨-, hmedia, -⟩ := parseInsertIssue_some body user.id [] ii hp
  rw [postIssues_ok user body [] t db ii hp hu hcat]
  exact ⟨rfl, rfl, hmedia⟩

/-- C8 witness: the citizen submits with zero files and the issue is
created with an empty media list. -/
theorem C8_witness :
    respIsOk (postIssues userC bodyOk [] 20 db0).1 = true ∧
    (postIssues userC bodyOk [] 20 db0).2.issues =
      db0.issues ++ [mkIssue iiZero 20 db0] ∧
    (mkIssue iiZero 20 db0).mediaUrls = [] :=
  C8_amended userC bodyOk 20 db0 iiZero (by decide) (by decide) (by decide)

/-- C8 counterexample: a zero-media submission succeeds and the stored
issue carries an empty media list — the claim demands rejection with no
issue created. -/
theorem C8_counterexample :
    respIsOk (postIssues userC bodyOk [] 20 db0).1 = true ∧
    (postIssues userC bodyOk [] 20 db0).2.issues.map
      (fun i => i.mediaUrls) = [[]] := by
  decide

/-- C9 (amended): toggling a vote on a nonexistent issue fails (the
store rejects the insert on the foreign key, so no row appears and the
store is unchanged), but the route surfaces it as the one generic
HTTP 500 response — not as a distinguishable `NotFound`. -/
theorem C9_amended (user : User) (iid t : Nat) (db : DB)
    (hno : db.issues.any (fun j => j.id == iid) = false)
    (hnorow : hasPairRow user.id iid db = false) :
    postUpvote user iid t db = (.err 500 "Failed to toggle upvote", db) ∧
    respIsNotFound (postUpvote user iid t db).1 = false := by
  have h := postUpvote_missing_issue user iid t db hno hnorow
  rw [h]
  exact ⟨rfl, rfl⟩

/-- C9 witness: upvoting the absent issue 99 yields the generic 500 and
leaves the store untouched. -/
theorem C9_witness :
    postUpvote userC 99 20 dbIssue =
      (.err 500 "Failed to toggle upvote", dbIssue) ∧
    respIsNotFound (postUpvote userC 99 20 dbIssue).1 = false :=
  C9_amended userC 99 20 dbIssue (by decide) (by decide)

/-- C9 counterexample: the outcome for a vote on the absent issue 99 is
the generic 500 used for every toggle failure, not an HTTP 404
`NotFound`; no vote row is inserted. -/
theorem C9_counterexample :
    dbIssue.issues.any (fun j => j.id == 99) = false ∧
    (postUpvote userC 99 20 dbIssue).1 =
      Resp.err 500 "Failed to toggle upvote" ∧
    respIsNotFound (postUpvote userC 99 20 dbIssue).1 = false ∧
    (postUpvote userC 99 20 dbIssue).2 = dbIssue := by
  decide

/-- C10 (amended): the analytics top list is the 3-prefix of the issue
table stably sorted by descending upvote count: it has min(3, total)
entries drawn from the issue table, is ordered by non-increasing upvote
count, and dominates every excluded issue's count.  Ties keep table
(storage) order — the tie-break is NOT by most-recent creation
timestamp (see the counterexample). -/
theorem C10_amended (db : DB) :
    (getAnalytics db).mostUpvotedIssues.length = min 3 db.issues.length ∧
    (∀ a ∈ (getAnalytics db).mostUpvotedIssues, a ∈ db.issues) ∧
    List.Pairwise (fun a b => upvoteCount db b.id ≤ upvoteCount db a.id)
      (getAnalytics db).mostUpvotedIssues ∧
    ∀ i ∈ db.issues, i ∉ (getAnalytics db).mostUpvotedIssues →
      ∀ j ∈ (getAnalytics db).mostUpvotedIssues,
        upvoteCount db i.id ≤ upvoteCount db j.id := by
  have htop : (getAnalytics db).mostUpvotedIssues =
      (sortByCountDesc db db.issues).take 3 := rfl
  rw [htop]
  refine ⟨?_, ?_, ?_, ?_⟩
  · rw [List.length_take, length_sortByCountDesc]
  · intro a ha
    exact (mem_sortByCountDesc db db.issues a).mp (List.take_subset 3 _ ha)
  · exact (pairwise_sortByCountDesc db db.issues).sublist
      (List.take_sublist 3 _)
  · intro i hi hnot j hj
    have hmem : i ∈ sortByCountDesc db db.issues :=
      (mem_sortByCountDesc db db.issues i).mpr hi
    have hsplit : (sortByCountDesc db db.issues).take 3 ++
        (sortByCountDesc db db.issues).drop 3 = sortByCountDesc db db.issues :=
      List.take_append_drop 3 _
    rw [← hsplit] at hmem
    rcases List.mem_append.mp hmem with hmemt | hmemd
    · exact absurd hmemt hnot
    · exact pairwise_take_drop (pairwise_sortByCountDesc db db.issues) 3
        j hj i hmemd

/-- C10 witness: the amended description evaluated at the concrete
two-issue store. -/
theorem C10_witness :
    (getAnalytics dbTwo).mostUpvotedIssues.length =
      min 3 dbTwo.issues.length ∧
    (∀ a ∈ (getAnalytics dbTwo).mostUpvotedIssues, a ∈ dbTwo.issues) ∧
    List.Pairwise
      (fun a b => upvoteCount dbTwo b.id ≤ upvoteCount dbTwo a.id)
      (getAnalytics dbTwo).mostUpvotedIssues ∧
    ∀ i ∈ dbTwo.issues, i ∉ (getAnalytics dbTwo).mostUpvotedIssues →
      ∀ j ∈ (getAnalytics dbTwo).mostUpvotedIssues,
        upvoteCount dbTwo i.id ≤ upvoteCount dbTwo j.id :=
  C10_amended dbTwo

/-- C10 counterexample: in the two-issue store both issues have zero
upvotes; the top list returns the OLDER issue (created at 10) before the
newer one (created at 200), so the claimed most-recent-first tie-break
does not hold. -/
theorem C10_counterexample :
    (getAnalytics dbTwo).mostUpvotedIssues.map
      (fun i => (i.id, i.createdAt, upvoteCount dbTwo i.id)) =
      [(3, 10, 0), (4, 200, 0)] ∧
    ¬ TieBreakByNewest dbTwo := by
  constructor
  · decide
  · decide
